import Mathlib

/-! The event loop of `read` in gostress.

A shallow embedding of `read` from `gostress.go`: the loop that decodes the
`go test -json` event stream, keeps one `testRunJSON` per key, and renders a
status line on every "pass" and "fail" event.

Modelling conventions.
* Go `string` values are `String`; `len` and the byte count returned by
  `fmt.Printf` are `String.utf8ByteSize`.
* Go `int` counters and lengths are `Int`. The counters only ever grow by one
  per decoded event, so the 64-bit wrap-around is out of reach of any stream
  shorter than `2^63` events and is not modelled.
* `time.Time` is an `Int` number of nanoseconds since the zero `time.Time`;
  `time.Duration` is an `Int` number of nanoseconds, saturated to the `int64`
  range as `Time.Sub` does.
* Standard output is the field `out` of the state: everything written so far.
* `time.Now()` is an input: every loop iteration comes with the clock reading
  `now` that the iteration would obtain.
-/

namespace Gostress

/-! ## Data model -/

/-- The struct `logJSON`: one decoded event. -/
structure logJSON where
  Time : Int
  Action : String
  Package : String
  Test : String
  Output : String
  deriving DecidableEq, Repr

/-- The struct `testRunJSON`: the counters of one key. -/
structure testRunJSON where
  attempts : Int
  success : Int
  deriving DecidableEq, Repr

/-- The map `runs` of `read`, `map[string]*testRunJSON`, as an association list
with at most one entry per key. -/
abbrev Runs := List (String × testRunJSON)

/-- The lookup `runs[k]`; `none` is Go's `nil` for an absent key. -/
def Runs.get : Runs → String → Option testRunJSON
  | [], _ => none
  | (k', tr) :: rest, k => if k' = k then some tr else Runs.get rest k

/-- The store `runs[k] = tr` (also the effect of mutating through the pointer
held under `k`). -/
def Runs.set : Runs → String → testRunJSON → Runs
  | [], k, tr => [(k, tr)]
  | (k', tr') :: rest, k, tr =>
    if k' = k then (k, tr) :: rest else (k', tr') :: Runs.set rest k tr

/-- The local variables of `read` that live across loop iterations, and the
text written to standard output so far. -/
structure State where
  runs : Runs
  lastK : String
  lastLen : Int
  st : Int
  dur : Int
  lastOutput : String
  out : String
  deriving DecidableEq, Repr

/-- The state at the top of `read`, before the first iteration. -/
def State.init : State :=
  { runs := [], lastK := "", lastLen := 0, st := 0, dur := 0, lastOutput := "", out := "" }

/-! ## `time.Duration` -/

/-- The largest `time.Duration`, `1<<63 - 1`. -/
def maxDuration : Int := 2 ^ 63 - 1

/-- The smallest `time.Duration`, `-1 << 63`. -/
def minDuration : Int := -(2 ^ 63)

/-- The difference `now - st` as `time.Since(st)` returns it: saturated to the
range of `time.Duration`. -/
def since (now st : Int) : Int :=
  if now - st > maxDuration then maxDuration
  else if now - st < minDuration then minDuration
  else now - st

/-- The loop of `fmtFrac`: `prec` times, strip the last decimal digit of `v`,
keeping it once a non-zero digit has been seen. -/
def fmtFracLoop : Nat → Nat → Bool → List Char → List Char × Nat × Bool
  | 0, v, print, acc => (acc, v, print)
  | prec + 1, v, print, acc =>
    let digit := v % 10
    let print := print || digit != 0
    fmtFracLoop prec (v / 10) print (if print then Char.ofNat (digit + 48) :: acc else acc)

/-- The function `fmtFrac` of package `time`: the fraction of `v / 10^prec`
without trailing zeros (empty when the fraction is zero), and `v / 10^prec`. -/
def fmtFrac (v prec : Nat) : String × Nat :=
  let r := fmtFracLoop prec v false []
  (String.mk (if r.2.2 then '.' :: r.1 else r.1), r.2.1)

/-- The function `fmtInt` of package `time`: `v` in decimal. -/
def fmtInt (v : Nat) : String := toString v

/-- The method `Duration.String` of package `time`, on a number of nanoseconds. -/
def durationString (d : Int) : String :=
  let u := d.natAbs
  let body :=
    if u < 1000000000 then
      if u = 0 then "0s"
      else if u < 1000 then fmtInt u ++ "ns"
      else if u < 1000000 then
        let f := fmtFrac u 3
        fmtInt f.2 ++ f.1 ++ "µs"
      else
        let f := fmtFrac u 6
        fmtInt f.2 ++ f.1 ++ "ms"
    else
      let f := fmtFrac u 9
      let secs := fmtInt (f.2 % 60) ++ f.1 ++ "s"
      let u := f.2 / 60
      if u > 0 then
        let mins := fmtInt (u % 60) ++ "m" ++ secs
        let u := u / 60
        if u > 0 then fmtInt u ++ "h" ++ mins else mins
      else secs
  if d < 0 then "-" ++ body else body

/-! ## The loop body -/

/-- The key `fmt.Sprintf("%v.%v", l.Package, l.Test)`. -/
def key (l : logJSON) : String := l.Package ++ "." ++ l.Test

/-- The entry `tr` the loop body works on: `runs[k]`, or a fresh zero
`testRunJSON` when the key is absent. -/
def entry (runs : Runs) (k : String) : testRunJSON :=
  match runs.get k with
  | some tr => tr
  | none => { attempts := 0, success := 0 }

/-- The status string `fmt.Sprintf("%v: %v/%v %v", k, tr.success, tr.attempts, dur)`. -/
def status (k : String) (tr : testRunJSON) (dur : Int) : String :=
  k ++ ": " ++ toString tr.success ++ "/" ++ toString tr.attempts ++ " " ++ durationString dur

/-- The tail of the loop body, reached on "pass" and "fail" only (lines
100-111): print the status line, pad, and handle a change of key. The state `s`
already holds the counters and `dur` of this event. -/
def render (s : State) (k : String) (tr : testRunJSON) : State :=
  let line := status k tr s.dur
  let out1 := s.out ++ "\r" ++ line
  let newLen : Int := (("\r" ++ line).utf8ByteSize : Nat)
  let out2 := if newLen < s.lastLen then
      out1 ++ String.mk (List.replicate (s.lastLen - newLen).toNat ' ')
    else out1
  if s.lastK ≠ k then
    if s.lastK ≠ "" then
      { s with out := out2 ++ "\n", lastLen := 0, lastK := k }
    else
      { s with out := out2, lastK := k }
  else
    { s with out := out2 }

/-- One iteration of the loop of `read` once `Decode` has filled `l` (lines
74-111), with `now` the reading of `time.Now()` in this iteration. -/
def step (s : State) (now : Int) (l : logJSON) : State :=
  if l.Test = "" then s
  else
    let k := key l
    let tr := entry s.runs k
    if l.Action = "run" then
      let tr := { tr with attempts := tr.attempts + 1 }
      { s with runs := s.runs.set k tr, st := now }
    else if l.Action = "pass" then
      let tr := { tr with success := tr.success + 1 }
      render { s with runs := s.runs.set k tr, lastOutput := "", dur := since now s.st } k tr
    else if l.Action = "fail" then
      render { s with runs := s.runs.set k tr, dur := since now s.st } k tr
    else if l.Action = "output" then
      { s with runs := s.runs.set k tr, lastOutput := s.lastOutput ++ l.Output }
    else
      { s with runs := s.runs.set k tr }

/-- The code after the loop (lines 113-116): the final newline, and the
buffered output when there is some. -/
def finish (s : State) : State :=
  let out1 := s.out ++ "\n"
  if s.lastOutput.utf8ByteSize > 0 then
    { s with out := out1 ++ s.lastOutput ++ "\n" }
  else
    { s with out := out1 }

/-- The loop of `read` over a finite sequence of decoded events, each with the
clock reading of its iteration. -/
def process (s : State) (evs : List (Int × logJSON)) : State :=
  evs.foldl (fun s e => step s e.1 e.2) s

/-- The function `read` on a stream that decodes to the events `evs` and then
ends: the loop from the initial state, then the code after the loop. -/
def readEvents (evs : List (Int × logJSON)) : State :=
  finish (process State.init evs)

/-! ## The decoder and the loop of `read` -/

/-- What the next call of `d.Decode(&l)` finds in the input of the
`json.Decoder`. The end of the list of chunks is the end of the input. -/
inductive Chunk where
  /-- A JSON value that fits `logJSON`: `Decode` fills `l` and returns `nil`.
  `now` is the clock reading of the iteration that decodes it. -/
  | value (now : Int) (l : logJSON)
  /-- A well-formed JSON value that does not fit `logJSON` (a number where a
  string is expected, say): `Decode` returns an `UnmarshalTypeError`, `l`
  holds the fields that did fit, and the decoder goes on with the next value. -/
  | mismatch (now : Int) (l : logJSON)
  /-- Bytes that are not a JSON value, or an input that ends inside a value:
  `Decode` returns a `SyntaxError` or `io.ErrUnexpectedEOF`, leaves `l`
  untouched, and keeps the error. -/
  | malformed
  deriving DecidableEq, Repr

/-- The part of a `json.Decoder` that `read` depends on: the input not yet
consumed and the field `err`, the error every later call returns. -/
structure Decoder where
  input : List Chunk
  err : Bool
  deriving DecidableEq, Repr

/-- The outcome of `d.Decode(&l)` as the loop sees it. -/
inductive Decoded where
  /-- The error is `nil`; `l` is the decoded event. -/
  | ok (now : Int) (l : logJSON)
  /-- The error satisfies `errors.Is(err, io.EOF)`. -/
  | eof
  /-- The error is not `nil` and is not `io.EOF`; `l` is what `Decode` left in
  the variable. -/
  | failed (now : Int) (l : logJSON)
  deriving DecidableEq, Repr

/-- The zero value of `logJSON`, what `var l logJSON` declares. -/
def logJSON.zero : logJSON :=
  { Time := 0, Action := "", Package := "", Test := "", Output := "" }

/-- One call of `d.Decode(&l)` on a fresh `l`. -/
def Decoder.Decode (d : Decoder) : Decoded × Decoder :=
  if d.err then (Decoded.failed 0 logJSON.zero, d)
  else
    match d.input with
    | [] => (Decoded.eof, d)
    | Chunk.value now l :: rest => (Decoded.ok now l, { d with input := rest })
    | Chunk.mismatch now l :: rest => (Decoded.failed now l, { d with input := rest })
    | Chunk.malformed :: _ => (Decoded.failed 0 logJSON.zero, { d with err := true })

/-- The loop of `read` (lines 67-112), run for at most `fuel` iterations;
`none` when the loop is still running after `fuel` iterations. Only an
`io.EOF` leaves the loop: after any other error the body runs on `l`. -/
def readLoop : Nat → Decoder → State → Option State
  | 0, _, _ => none
  | fuel + 1, d, s =>
    match d.Decode with
    | (Decoded.eof, _) => some s
    | (Decoded.ok now l, d') => readLoop fuel d' (step s now l)
    | (Decoded.failed now l, d') => readLoop fuel d' (step s now l)

/-- The function `read` on the input `input`, run for at most `fuel` loop
iterations. -/
def read (fuel : Nat) (input : List Chunk) : Option State :=
  (readLoop fuel { input := input, err := false } State.init).map finish

/-! ## Counting events, for the statements -/

/-- The event `e` has a non-empty `Test`, key `k` and action `a`. -/
def isEvent (a k : String) (e : Int × logJSON) : Bool :=
  decide (e.2.Test ≠ "") && decide (key e.2 = k) && decide (e.2.Action = a)

/-- The number of events of `evs` with non-empty `Test`, key `k` and action `a`. -/
def countEvents (a k : String) (evs : List (Int × logJSON)) : Nat :=
  evs.countP (isEvent a k)

/-- Every "pass" event for key `k` in `evs` has a "run" event for `k` of its
own before it; `pending` is the number of "run" events for `k` seen so far
that no "pass" has used. -/
def runPrecedesPass (k : String) : Nat → List (Int × logJSON) → Bool
  | _, [] => true
  | pending, e :: es =>
    if isEvent "run" k e then runPrecedesPass k (pending + 1) es
    else if isEvent "pass" k e then
      decide (pending ≠ 0) && runPrecedesPass k (pending - 1) es
    else runPrecedesPass k pending es

/-- An event with the given action, package, test and output text. -/
def mkEvent (action pkg test output : String) : logJSON :=
  { Time := 0, Action := action, Package := pkg, Test := test, Output := output }

/-- An event with the timestamp `time` in its `Time` field. -/
def mkEventAt (time : Int) (action pkg test output : String) : logJSON :=
  { Time := time, Action := action, Package := pkg, Test := test, Output := output }

/-- The padding `strings.Repeat(" ", n)`. -/
def spaces (n : Int) : String := String.mk (List.replicate n.toNat ' ')

/-- The event `e` has a non-empty `Test` and action `a`, whatever its key. -/
def hasAction (a : String) (e : Int × logJSON) : Bool :=
  decide (e.2.Test ≠ "") && decide (e.2.Action = a)

/-- The events of `evs` that come after the most recent "pass" event with
non-empty `Test`; all of `evs` when there is no such event. -/
def afterLastPass (evs : List (Int × logJSON)) : List (Int × logJSON) :=
  (evs.reverse.takeWhile (fun e => !hasAction "pass" e)).reverse

/-- The buffer as the specification words it: the concatenation, in stream
order, of the `Output` fields of the "output" events with non-empty `Test` that
come after the most recent "pass" event with non-empty `Test`. -/
def expectedBuffer (evs : List (Int × logJSON)) : String :=
  String.join (((afterLastPass evs).filter (hasAction "output")).map (fun e => e.2.Output))

/-- The current key as the specification words it: the key of the most recent
"pass" or "fail" event with non-empty `Test`, and the empty string when there
is none. -/
def expectedLastK (evs : List (Int × logJSON)) : String :=
  match evs.reverse.find? (fun e => hasAction "pass" e || hasAction "fail" e) with
  | some e => key e.2
  | none => ""

/-- The clock reading of the iteration of the most recent "run" event with
non-empty `Test`, of whatever key; `none` when there is no such event. -/
def lastRunReading (evs : List (Int × logJSON)) : Option Int :=
  (evs.reverse.find? (hasAction "run")).map (fun e => e.1)

/-! ## Lemmas on the map -/

theorem Runs.get_set (m : Runs) (k k' : String) (tr : testRunJSON) :
    (Runs.set m k tr).get k' = if k = k' then some tr else m.get k' := by
  induction m with
  | nil => simp [Runs.set, Runs.get]
  | cons p rest ih =>
    obtain ⟨k0, tr0⟩ := p
    by_cases h0 : k0 = k
    · subst h0
      by_cases h1 : k0 = k' <;> simp [Runs.set, Runs.get, h1]
    · by_cases h1 : k0 = k'
      · subst h1
        have h2 : ¬ k = k0 := fun h => h0 h.symm
        simp [Runs.set, Runs.get, h0, h2]
      · simp [Runs.set, Runs.get, h0, h1, ih]

theorem entry_set (m : Runs) (k k' : String) (tr : testRunJSON) :
    entry (Runs.set m k tr) k' = if k = k' then tr else entry m k' := by
  unfold entry
  rw [Runs.get_set]
  by_cases h : k = k' <;> simp [h]

/-! ## Lemmas on one iteration -/

theorem render_runs (s : State) (k : String) (tr : testRunJSON) :
    (render s k tr).runs = s.runs := by
  unfold render
  split_ifs <;> rfl

theorem render_lastOutput (s : State) (k : String) (tr : testRunJSON) :
    (render s k tr).lastOutput = s.lastOutput := by
  unfold render
  split_ifs <;> rfl

theorem render_lastK (s : State) (k : String) (tr : testRunJSON) :
    (render s k tr).lastK = k := by
  unfold render
  split_ifs with h1 h2 <;> simp_all

theorem render_lastLen (s : State) (k : String) (tr : testRunJSON)
    (h : s.lastLen = 0) : (render s k tr).lastLen = 0 := by
  unfold render
  split_ifs <;> simp_all

/-- What `render` writes: the carriage return and the status line, the
padding, and a newline when the key replaces another one. -/
theorem render_out (s : State) (k : String) (tr : testRunJSON) :
    (render s k tr).out =
      s.out ++ "\r" ++ status k tr s.dur
        ++ (if ((("\r" ++ status k tr s.dur).utf8ByteSize : Nat) : Int) < s.lastLen then
              spaces (s.lastLen - ((("\r" ++ status k tr s.dur).utf8ByteSize : Nat) : Int))
            else "")
        ++ (if s.lastK ≠ k ∧ s.lastK ≠ "" then "\n" else "") := by
  unfold render spaces
  split_ifs <;> simp_all

theorem step_runs (s : State) (now : Int) (l : logJSON) (h : l.Test ≠ "") :
    (step s now l).runs =
      s.runs.set (key l)
        { attempts := (entry s.runs (key l)).attempts + (if l.Action = "run" then 1 else 0),
          success := (entry s.runs (key l)).success
            + (if l.Action = "run" then 0 else if l.Action = "pass" then 1 else 0) } := by
  unfold step
  simp only [h, if_false]
  split_ifs <;> simp [render_runs]

/-- The counters of key `k` after one iteration. -/
theorem step_entry (s : State) (now : Int) (l : logJSON) (k : String) :
    (entry (step s now l).runs k).attempts
        = (entry s.runs k).attempts + (if isEvent "run" k (now, l) then 1 else 0)
      ∧ (entry (step s now l).runs k).success
        = (entry s.runs k).success + (if isEvent "pass" k (now, l) then 1 else 0) := by
  by_cases h : l.Test = ""
  · simp [step, h, isEvent]
  · rw [step_runs s now l h, entry_set]
    by_cases hk : key l = k
    · subst hk
      by_cases hr : l.Action = "run"
      · simp [isEvent, h, hr]
      · by_cases hp : l.Action = "pass" <;> simp [isEvent, h, hr, hp]
    · simp [isEvent, hk]

theorem process_nil (s : State) : process s [] = s := rfl

theorem process_cons (s : State) (e : Int × logJSON) (evs : List (Int × logJSON)) :
    process s (e :: evs) = process (step s e.1 e.2) evs := rfl

theorem process_append (s : State) (evs evs' : List (Int × logJSON)) :
    process s (evs ++ evs') = process (process s evs) evs' := by
  simp [process, List.foldl_append]

/-- The counters of key `k` after a sequence of iterations. -/
theorem process_entry (k : String) (evs : List (Int × logJSON)) (s : State) :
    (entry (process s evs).runs k).attempts
        = (entry s.runs k).attempts + (countEvents "run" k evs : Nat)
      ∧ (entry (process s evs).runs k).success
        = (entry s.runs k).success + (countEvents "pass" k evs : Nat) := by
  induction evs generalizing s with
  | nil => simp [process_nil, countEvents]
  | cons e evs ih =>
    obtain ⟨h1, h2⟩ := ih (step s e.1 e.2)
    obtain ⟨g1, g2⟩ := step_entry s e.1 e.2 k
    rw [process_cons, h1, h2, g1, g2]
    simp only [countEvents, List.countP_cons]
    constructor
    · split_ifs <;> push_cast <;> omega
    · split_ifs <;> push_cast <;> omega

theorem isEvent_run_pass (k : String) (e : Int × logJSON) (h : isEvent "run" k e = true) :
    isEvent "pass" k e = false := by
  simp only [isEvent, Bool.and_eq_true, decide_eq_true_eq] at h
  simp [isEvent, h.2]

/-- While every "pass" for `k` has its own earlier "run", the passes never
overtake the runs: `pending` runs are still unused. -/
theorem process_success_le (k : String) (evs : List (Int × logJSON)) (pending : Nat)
    (s : State) (h : runPrecedesPass k pending evs = true)
    (hs : (entry s.runs k).success + pending ≤ (entry s.runs k).attempts) :
    (entry (process s evs).runs k).success ≤ (entry (process s evs).runs k).attempts := by
  induction evs generalizing s pending with
  | nil => rw [process_nil]; omega
  | cons e evs ih =>
    obtain ⟨g1, g2⟩ := step_entry s e.1 e.2 k
    rw [process_cons]
    unfold runPrecedesPass at h
    by_cases hr : isEvent "run" k e = true
    · have hp := isEvent_run_pass k e hr
      simp only [hr, if_true] at h
      apply ih (pending + 1) _ h
      rw [g1, g2]
      simp only [Prod.mk.eta, hr, hp, if_true]
      push_cast
      simp
      omega
    · have hr' : isEvent "run" k e = false := by simpa using hr
      by_cases hp : isEvent "pass" k e = true
      · simp only [hr', hp, if_true, Bool.false_eq_true, if_false, Bool.and_eq_true,
          decide_eq_true_eq] at h
        apply ih (pending - 1) _ h.2
        rw [g1, g2]
        simp only [Prod.mk.eta, hr', hp, if_true, Bool.false_eq_true, if_false]
        have := h.1
        omega
      · have hp' : isEvent "pass" k e = false := by simpa using hp
        simp only [hr', hp', Bool.false_eq_true, if_false] at h
        apply ih pending _ h
        rw [g1, g2]
        simp only [Prod.mk.eta, hr', hp', Bool.false_eq_true, if_false]
        simpa using hs

theorem runPrecedesPass_take (k : String) (evs : List (Int × logJSON)) (pending n : Nat)
    (h : runPrecedesPass k pending evs = true) :
    runPrecedesPass k pending (evs.take n) = true := by
  induction evs generalizing pending n with
  | nil => simp [runPrecedesPass]
  | cons e evs ih =>
    cases n with
    | zero => simp [runPrecedesPass]
    | succ n =>
      rw [List.take_succ_cons]
      unfold runPrecedesPass at h ⊢
      by_cases hr : isEvent "run" k e = true
      · simp only [hr, if_true] at h ⊢
        exact ih _ _ h
      · have hr' : isEvent "run" k e = false := by simpa using hr
        by_cases hp : isEvent "pass" k e = true
        · simp only [hr', hp, if_true, Bool.false_eq_true, if_false, Bool.and_eq_true,
            decide_eq_true_eq] at h ⊢
          exact ⟨h.1, ih _ _ h.2⟩
        · have hp' : isEvent "pass" k e = false := by simpa using hp
          simp only [hr', hp', Bool.false_eq_true, if_false] at h ⊢
          exact ih _ _ h

theorem step_lastLen (s : State) (now : Int) (l : logJSON) (h : s.lastLen = 0) :
    (step s now l).lastLen = 0 := by
  unfold step
  split_ifs <;> first | exact h | exact render_lastLen _ _ _ h

/-- The variable `lastLen` is 0 in every state the loop reaches: the loop
assigns it nothing but 0. -/
theorem process_lastLen (evs : List (Int × logJSON)) (s : State) (h : s.lastLen = 0) :
    (process s evs).lastLen = 0 := by
  induction evs generalizing s with
  | nil => exact h
  | cons e evs ih => exact ih _ (step_lastLen s e.1 e.2 h)

/-- Once the decoder holds an error, the loop never ends. -/
theorem readLoop_err (fuel : Nat) (input : List Chunk) (s : State) :
    readLoop fuel { input := input, err := true } s = none := by
  induction fuel with
  | zero => rfl
  | succ fuel ih =>
    have hs : step s 0 logJSON.zero = s := by simp [step, logJSON.zero]
    simp only [readLoop, Decoder.Decode, if_true, hs]
    exact ih

/-- On an input of well-formed values the loop ends, within one iteration
more than there are values, in the state `process` computes. -/
theorem readLoop_values (evs : List (Int × logJSON)) (extra : Nat) (s : State) :
    readLoop (evs.length + 1 + extra)
        { input := evs.map (fun e => Chunk.value e.1 e.2), err := false } s
      = some (process s evs) := by
  induction evs generalizing s with
  | nil => simp [readLoop, Decoder.Decode, process_nil, Nat.add_comm 1 extra]
  | cons e evs ih =>
    have hlen : (e :: evs).length + 1 + extra = (evs.length + 1 + extra) + 1 := by
      simp only [List.length_cons]; omega
    rw [hlen, process_cons]
    simp only [readLoop, Decoder.Decode, List.map_cons, Bool.false_eq_true, if_false]
    exact ih _

/-- On a stream of well-formed values, `read` returns, and returns what
`readEvents` computes. -/
theorem read_values (evs : List (Int × logJSON)) (extra : Nat) :
    read (evs.length + 1 + extra) (evs.map (fun e => Chunk.value e.1 e.2))
      = some (readEvents evs) := by
  simp [read, readEvents, readLoop_values]

theorem utf8ByteSize_pos_iff (t : String) : t.utf8ByteSize > 0 ↔ t ≠ "" := by
  obtain ⟨cs⟩ := t
  cases cs with
  | nil => simp [String.utf8ByteSize, String.utf8ByteSize.go]
  | cons c cs =>
    have hc := Char.utf8Size_pos c
    have hne : (String.mk (c :: cs)) ≠ "" := by
      intro h
      have := congrArg String.data h
      simp at this
    simp only [String.utf8ByteSize, String.utf8ByteSize.go, gt_iff_lt, ne_eq, hne,
      not_false_eq_true, iff_true]
    omega

/-- The whole effect of the code after the loop. -/
theorem finish_eq (s : State) :
    finish s
      = { s with out := s.out ++ "\n"
            ++ (if s.lastOutput = "" then "" else s.lastOutput ++ "\n") } := by
  unfold finish
  by_cases h : s.lastOutput = ""
  · have h0 : ¬ s.lastOutput.utf8ByteSize > 0 := by
      rw [utf8ByteSize_pos_iff]; simpa using h
    rw [if_neg h0, if_pos h]
    simp
  · have h0 : s.lastOutput.utf8ByteSize > 0 := (utf8ByteSize_pos_iff _).2 h
    rw [if_pos h0, if_neg h]
    simp [String.append_assoc]

/-- The iteration of a "pass" or "fail" event, as a call of `render`. -/
theorem step_terminating (s : State) (now : Int) (l : logJSON) (ht : l.Test ≠ "")
    (ha : l.Action = "pass" ∨ l.Action = "fail") :
    step s now l
      = render
          { s with
            runs := s.runs.set (key l) (entry (step s now l).runs (key l)),
            lastOutput := if l.Action = "pass" then "" else s.lastOutput,
            dur := since now s.st }
          (key l) (entry (step s now l).runs (key l)) := by
  rw [step_runs s now l ht, entry_set]
  simp only [if_true]
  unfold step
  rcases ha with ha | ha
  · have hr : ¬ l.Action = "run" := by rw [ha]; decide
    simp [ht, hr, ha]
  · have hr : ¬ l.Action = "run" := by rw [ha]; decide
    have hp : ¬ l.Action = "pass" := by rw [ha]; decide
    simp only [ht, hr, hp, ha, if_false, if_true]
    simp

/-- What the iteration of a "pass" or "fail" event writes. -/
theorem step_terminating_out (s : State) (now : Int) (l : logJSON) (ht : l.Test ≠ "")
    (ha : l.Action = "pass" ∨ l.Action = "fail") :
    (step s now l).out
      = s.out ++ "\r" ++ status (key l) (entry (step s now l).runs (key l)) (since now s.st)
        ++ (if ((("\r" ++ status (key l) (entry (step s now l).runs (key l))
                  (since now s.st)).utf8ByteSize : Nat) : Int) < s.lastLen then
              spaces (s.lastLen - ((("\r" ++ status (key l) (entry (step s now l).runs (key l))
                  (since now s.st)).utf8ByteSize : Nat) : Int))
            else "")
        ++ (if s.lastK ≠ key l ∧ s.lastK ≠ "" then "\n" else "") := by
  conv_lhs => rw [step_terminating s now l ht ha]
  rw [render_out]

theorem step_silent_out (s : State) (now : Int) (l : logJSON)
    (ha : ¬ l.Action = "pass") (hf : ¬ l.Action = "fail") :
    (step s now l).out = s.out ∧ (step s now l).lastK = s.lastK := by
  unfold step
  split_ifs <;> simp

theorem step_run (s : State) (now : Int) (l : logJSON) (ht : l.Test ≠ "")
    (ha : l.Action = "run") :
    step s now l
      = { s with
          runs := s.runs.set (key l)
            { entry s.runs (key l) with attempts := (entry s.runs (key l)).attempts + 1 },
          st := now } := by
  simp [step, ht, ha]

theorem step_output (s : State) (now : Int) (l : logJSON) (ht : l.Test ≠ "")
    (ha : l.Action = "output") :
    step s now l
      = { s with
          runs := s.runs.set (key l) (entry s.runs (key l)),
          lastOutput := s.lastOutput ++ l.Output } := by
  have hr : ¬ l.Action = "run" := by rw [ha]; decide
  have hp : ¬ l.Action = "pass" := by rw [ha]; decide
  have hf : ¬ l.Action = "fail" := by rw [ha]; decide
  simp [step, ht, ha]

theorem step_fail_lastOutput (s : State) (now : Int) (l : logJSON) (ht : l.Test ≠ "")
    (ha : l.Action = "fail") :
    (step s now l).lastOutput = s.lastOutput := by
  have hp : ¬ l.Action = "pass" := by rw [ha]; decide
  rw [step_terminating s now l ht (Or.inr ha), render_lastOutput]
  simp [hp]

theorem append_ne_empty (b t : String) (h : t ≠ "") : b ++ t ≠ "" := by
  intro hb
  apply h
  have h1 := congrArg String.data hb
  rw [String.data_append] at h1
  have h2 : t.data = [] := (List.append_eq_nil.mp h1).2
  exact String.ext h2

theorem since_add (c d : Int) (h1 : minDuration ≤ d) (h2 : d ≤ maxDuration) :
    since (c + d) c = d := by
  unfold since
  have h : c + d - c = d := by ring
  rw [h]
  split_ifs <;> omega

theorem finish_lastOutput (s : State) : (finish s).lastOutput = s.lastOutput := by
  unfold finish
  split_ifs <;> rfl

theorem process_snoc (s : State) (evs : List (Int × logJSON)) (e : Int × logJSON) :
    process s (evs ++ [e]) = step (process s evs) e.1 e.2 := by
  rw [process_append, process_cons, process_nil]

/-- The output buffer after one iteration. -/
theorem step_lastOutput (s : State) (now : Int) (l : logJSON) :
    (step s now l).lastOutput
      = if hasAction "pass" (now, l) then ""
        else if hasAction "output" (now, l) then s.lastOutput ++ l.Output
        else s.lastOutput := by
  by_cases ht : l.Test = ""
  · simp [step, hasAction, ht]
  · by_cases hr : l.Action = "run"
    · simp [step, hasAction, ht, hr]
    · by_cases hp : l.Action = "pass"
      · simp [step, hasAction, ht, hp, render_lastOutput]
      · by_cases hf : l.Action = "fail"
        · simp [step, hasAction, ht, hf, render_lastOutput]
        · by_cases ho : l.Action = "output"
          · simp [step, hasAction, ht, ho]
          · simp [step, hasAction, ht, hr, hp, hf, ho]

/-- The current key after one iteration. -/
theorem step_lastK (s : State) (now : Int) (l : logJSON) :
    (step s now l).lastK
      = if (hasAction "pass" (now, l) || hasAction "fail" (now, l)) then key l else s.lastK := by
  by_cases ht : l.Test = ""
  · simp [step, hasAction, ht]
  · by_cases hr : l.Action = "run"
    · simp [step, hasAction, ht, hr]
    · by_cases hp : l.Action = "pass"
      · simp [step, hasAction, ht, hp, render_lastK]
      · by_cases hf : l.Action = "fail"
        · simp [step, hasAction, ht, hf, render_lastK]
        · by_cases ho : l.Action = "output"
          · simp [step, hasAction, ht, ho]
          · simp [step, hasAction, ht, hr, hp, hf, ho]

theorem render_st (s : State) (k : String) (tr : testRunJSON) :
    (render s k tr).st = s.st := by
  unfold render
  split_ifs <;> rfl

/-- The start time after one iteration. -/
theorem step_st (s : State) (now : Int) (l : logJSON) :
    (step s now l).st = if hasAction "run" (now, l) then now else s.st := by
  by_cases ht : l.Test = ""
  · simp [step, hasAction, ht]
  · by_cases hr : l.Action = "run"
    · simp [step, hasAction, ht, hr]
    · by_cases hp : l.Action = "pass"
      · simp [step, hasAction, ht, hp, render_st]
      · by_cases hf : l.Action = "fail"
        · simp [step, hasAction, ht, hf, render_st]
        · by_cases ho : l.Action = "output"
          · simp [step, hasAction, ht, ho]
          · simp [step, hasAction, ht, hr, hp, hf, ho]

theorem join_snoc (xs : List String) (x : String) :
    String.join (xs ++ [x]) = String.join xs ++ x := by
  simp [String.join, List.foldl_append]

theorem afterLastPass_snoc (evs : List (Int × logJSON)) (e : Int × logJSON) :
    afterLastPass (evs ++ [e])
      = if hasAction "pass" e then [] else afterLastPass evs ++ [e] := by
  unfold afterLastPass
  rw [List.reverse_append, List.reverse_singleton, List.singleton_append, List.takeWhile_cons]
  by_cases h : hasAction "pass" e = true
  · simp [h]
  · have h' : hasAction "pass" e = false := by simpa using h
    simp [h']

theorem expectedBuffer_snoc (evs : List (Int × logJSON)) (e : Int × logJSON) :
    expectedBuffer (evs ++ [e])
      = if hasAction "pass" e then ""
        else if hasAction "output" e then expectedBuffer evs ++ e.2.Output
        else expectedBuffer evs := by
  unfold expectedBuffer
  rw [afterLastPass_snoc]
  by_cases hp : hasAction "pass" e = true
  · simp [hp, String.join]
  · have hp' : hasAction "pass" e = false := by simpa using hp
    by_cases ho : hasAction "output" e = true
    · simp only [hp', ho, Bool.false_eq_true, if_false, if_true, List.filter_append,
        List.filter_cons, List.filter_nil, List.map_append, List.map_cons, List.map_nil]
      rw [join_snoc]
    · have ho' : hasAction "output" e = false := by simpa using ho
      simp [hp', ho']

theorem expectedLastK_snoc (evs : List (Int × logJSON)) (e : Int × logJSON) :
    expectedLastK (evs ++ [e])
      = if (hasAction "pass" e || hasAction "fail" e) then key e.2 else expectedLastK evs := by
  unfold expectedLastK
  rw [List.reverse_append, List.reverse_singleton, List.singleton_append, List.find?_cons]
  by_cases h : (hasAction "pass" e || hasAction "fail" e) = true
  · simp [h]
  · have h' : (hasAction "pass" e || hasAction "fail" e) = false := by simpa using h
    simp [h']

theorem lastRunReading_snoc (evs : List (Int × logJSON)) (e : Int × logJSON) :
    lastRunReading (evs ++ [e])
      = if hasAction "run" e then some e.1 else lastRunReading evs := by
  unfold lastRunReading
  rw [List.reverse_append, List.reverse_singleton, List.singleton_append, List.find?_cons]
  by_cases h : hasAction "run" e = true
  · simp [h]
  · have h' : hasAction "run" e = false := by simpa using h
    simp [h']

/-- The output buffer of the loop is the buffer the specification describes. -/
theorem process_lastOutput (evs : List (Int × logJSON)) :
    (process State.init evs).lastOutput = expectedBuffer evs := by
  induction evs using List.reverseRecOn with
  | nil => rfl
  | append_singleton evs e ih =>
    rw [process_snoc, step_lastOutput, expectedBuffer_snoc, ih]

/-- The current key of the loop is the key the specification describes. -/
theorem process_lastK (evs : List (Int × logJSON)) :
    (process State.init evs).lastK = expectedLastK evs := by
  induction evs using List.reverseRecOn with
  | nil => rfl
  | append_singleton evs e ih =>
    rw [process_snoc, step_lastK, expectedLastK_snoc, ih]

/-- The start time of the loop is the clock reading of the most recent "run"
event with non-empty `Test`, and the zero time when there is none. -/
theorem process_st (evs : List (Int × logJSON)) :
    (process State.init evs).st = (lastRunReading evs).getD 0 := by
  induction evs using List.reverseRecOn with
  | nil => rfl
  | append_singleton evs e ih =>
    rw [process_snoc, step_st, lastRunReading_snoc, ih]
    by_cases h : hasAction "run" e = true
    · simp [h]
    · have h' : hasAction "run" e = false := by simpa using h
      simp [h']

theorem key_ne_empty (l : logJSON) : key l ≠ "" := by
  intro h
  have h1 := congrArg String.data h
  simp [key, String.data_append] at h1

theorem render_dur (s : State) (k : String) (tr : testRunJSON) :
    (render s k tr).dur = s.dur := by
  unfold render
  split_ifs <;> rfl

/-- Two lists split at an element `a` that occurs in neither left part are
split in the same way. -/
theorem split_at_first (a : Char) (x1 x2 z1 z2 : List Char) (h1 : a ∉ x1) (h2 : a ∉ x2)
    (h : x1 ++ a :: z1 = x2 ++ a :: z2) : x1 = x2 ∧ z1 = z2 := by
  induction x1 generalizing x2 with
  | nil =>
    cases x2 with
    | nil => simpa using h
    | cons b x2 =>
      simp only [List.nil_append, List.cons_append, List.cons.injEq] at h
      simp [h.1] at h2
  | cons b x1 ih =>
    cases x2 with
    | nil =>
      simp only [List.nil_append, List.cons_append, List.cons.injEq] at h
      simp [h.1] at h1
    | cons c x2 =>
      simp only [List.cons_append, List.cons.injEq] at h
      simp only [List.mem_cons, not_or] at h1 h2
      obtain ⟨e1, e2⟩ := ih x2 h1.2 h2.2 h.2
      exact ⟨by rw [h.1, e1], e2⟩

/-- Two lists split at an element `a` that occurs in neither right part are
split in the same way. -/
theorem split_at_last (a : Char) (x1 x2 z1 z2 : List Char) (h1 : a ∉ z1) (h2 : a ∉ z2)
    (h : x1 ++ a :: z1 = x2 ++ a :: z2) : x1 = x2 ∧ z1 = z2 := by
  have hr := congrArg List.reverse h
  simp only [List.reverse_append, List.reverse_cons, List.append_assoc,
    List.singleton_append] at hr
  obtain ⟨e1, e2⟩ := split_at_first a z1.reverse z2.reverse x1.reverse x2.reverse
    (by simpa using h1) (by simpa using h2) hr
  exact ⟨List.reverse_injective e2, List.reverse_injective e1⟩

theorem key_data (l : logJSON) : (key l).data = l.Package.data ++ '.' :: l.Test.data := by
  simp [key, String.data_append]

theorem finish_runs (s : State) : (finish s).runs = s.runs := by
  unfold finish
  split_ifs <;> rfl

theorem entry_init (k : String) : entry State.init.runs k = { attempts := 0, success := 0 } := rfl

/-! ## The counters -/

/-- C1: for every finite sequence of events and every key `k`, after `read`
has processed the sequence the entry of `k` (an absent entry counting as 0/0)
has `attempts` equal to the number of events with non-empty `Test`, key `k`
and action "run", and `success` equal to the number of such events with action
"pass". -/
theorem read_counts (evs : List (Int × logJSON)) (k : String) :
    (entry (readEvents evs).runs k).attempts = (countEvents "run" k evs : Nat)
      ∧ (entry (readEvents evs).runs k).success = (countEvents "pass" k evs : Nat) := by
  unfold readEvents
  rw [finish_runs]
  obtain ⟨h1, h2⟩ := process_entry k evs State.init
  rw [h1, h2, entry_init]
  simp

/-- C2, as stated, fails: after the single event pass(p.A), with no "run"
before it, the entry of `p.A` has `success = 1` and `attempts = 0`. -/
theorem pass_without_run_counters :
    (entry (process State.init [(0, mkEvent "pass" "p" "A" "")]).runs "p.A").success = 1
      ∧ (entry (process State.init [(0, mkEvent "pass" "p" "A" "")]).runs "p.A").attempts = 0
      ∧ ¬ (entry (process State.init [(0, mkEvent "pass" "p" "A" "")]).runs "p.A").success
          ≤ (entry (process State.init [(0, mkEvent "pass" "p" "A" "")]).runs "p.A").attempts := by
  decide

/-- C2, amended: for every sequence of events in which each "pass" event for
key `k` has a "run" event for `k` of its own before it, after every event
processed (after the first `n` events, for every `n`) the entry of `k` has
`0 ≤ success ≤ attempts`. -/
theorem success_le_attempts (evs : List (Int × logJSON)) (k : String)
    (h : runPrecedesPass k 0 evs = true) (n : Nat) :
    0 ≤ (entry (process State.init (evs.take n)).runs k).success
      ∧ (entry (process State.init (evs.take n)).runs k).success
          ≤ (entry (process State.init (evs.take n)).runs k).attempts := by
  constructor
  · rw [(process_entry k (evs.take n) State.init).2, entry_init]
    simp
  · apply process_success_le k (evs.take n) 0 State.init (runPrecedesPass_take k evs 0 n h)
    rw [entry_init]
    simp

/-- The amended C2 at the events run(p.A), pass(p.A), run(p.A), fail(p.A),
after all four of them. -/
theorem success_le_attempts_witness :
    runPrecedesPass "p.A" 0
        [(0, mkEvent "run" "p" "A" ""), (1, mkEvent "pass" "p" "A" ""),
         (2, mkEvent "run" "p" "A" ""), (3, mkEvent "fail" "p" "A" "")] = true
      ∧ 0 ≤ (entry (process State.init
          (List.take 4 [(0, mkEvent "run" "p" "A" ""), (1, mkEvent "pass" "p" "A" ""),
            (2, mkEvent "run" "p" "A" ""), (3, mkEvent "fail" "p" "A" "")])).runs "p.A").success
      ∧ (entry (process State.init
          (List.take 4 [(0, mkEvent "run" "p" "A" ""), (1, mkEvent "pass" "p" "A" ""),
            (2, mkEvent "run" "p" "A" ""), (3, mkEvent "fail" "p" "A" "")])).runs "p.A").success
        ≤ (entry (process State.init
          (List.take 4 [(0, mkEvent "run" "p" "A" ""), (1, mkEvent "pass" "p" "A" ""),
            (2, mkEvent "run" "p" "A" ""), (3, mkEvent "fail" "p" "A" "")])).runs "p.A").attempts :=
  ⟨by decide,
   success_le_attempts
     [(0, mkEvent "run" "p" "A" ""), (1, mkEvent "pass" "p" "A" ""),
      (2, mkEvent "run" "p" "A" ""), (3, mkEvent "fail" "p" "A" "")] "p.A" (by decide) 4⟩

/-! ## The status line -/

/-- C3: the code at run(p.A), pass(p.A), run(p.B), pass(p.B), one second
between a run and its pass. After pass(p.A) the output is the status line of
`p.A`; pass(p.B) writes the status line of `p.B` first and the newline for the
change of key after it, so that the whole output of `read` is the two status
lines, with no newline between them, and then two newlines. -/
theorem key_switch_output :
    (process State.init
        [(0, mkEvent "run" "p" "A" ""), (1000000000, mkEvent "pass" "p" "A" "")]).out
        = "\rp.A: 1/1 1s"
      ∧ (process State.init
        [(0, mkEvent "run" "p" "A" ""), (1000000000, mkEvent "pass" "p" "A" ""),
         (2000000000, mkEvent "run" "p" "B" ""), (3000000000, mkEvent "pass" "p" "B" "")]).out
        = "\rp.A: 1/1 1s\rp.B: 1/1 1s\n"
      ∧ (readEvents
        [(0, mkEvent "run" "p" "A" ""), (1000000000, mkEvent "pass" "p" "A" ""),
         (2000000000, mkEvent "run" "p" "B" ""), (3000000000, mkEvent "pass" "p" "B" "")]).out
        = "\rp.A: 1/1 1s\rp.B: 1/1 1s\n\n" := by
  decide

/-- C4: the code at run(p.A), pass(p.A) after 1.5s, run(p.A), pass(p.A) after
1s. The second status line, "p.A: 2/2 1s", is two bytes shorter than the first,
"p.A: 1/1 1.5s", and is written with no space after it; `lastLen` is 0 before
and after each of the events, as it is after every sequence of events. -/
theorem shorter_status_output :
    (process State.init
        [(0, mkEvent "run" "p" "A" ""), (1500000000, mkEvent "pass" "p" "A" "")]).out
        = "\rp.A: 1/1 1.5s"
      ∧ (process State.init
        [(0, mkEvent "run" "p" "A" ""), (1500000000, mkEvent "pass" "p" "A" ""),
         (2000000000, mkEvent "run" "p" "A" ""), (3000000000, mkEvent "pass" "p" "A" "")]).out
        = "\rp.A: 1/1 1.5s\rp.A: 2/2 1s"
      ∧ ∀ evs : List (Int × logJSON), (process State.init evs).lastLen = 0 := by
  refine ⟨by decide, by decide, fun evs => process_lastLen evs State.init rfl⟩

/-! ## Decode errors -/

/-- C5: the code on two inputs whose only unit fails to decode. On a unit that
is not a JSON value the loop is still running after any number of iterations,
so `read` never reaches the code after the loop. On a JSON object with
"Action":"run", "Test":"T" and the number 5 as "Package", a value that does
not fit `logJSON`, `read` returns, having counted the unit as a "run" for the
key `.T`; on the empty input it returns with no entry changed. -/
theorem decode_failure_behaviour :
    (∀ fuel : Nat, read fuel [Chunk.malformed] = none)
      ∧ (read 2 [Chunk.mismatch 0 (mkEvent "run" "" "T" "")]).map
          (fun s => (entry s.runs ".T").attempts) = some 1
      ∧ (read 1 []).map (fun s => (entry s.runs ".T").attempts) = some 0 := by
  refine ⟨?_, by decide, by decide⟩
  intro fuel
  cases fuel with
  | zero => rfl
  | succ fuel =>
    have hs : step State.init 0 logJSON.zero = State.init := by decide
    simp only [read, readLoop, Decoder.Decode, Bool.false_eq_true, if_false, hs,
      readLoop_err, Option.map_none']

/-! ## The output buffer and the end of the stream -/

/-- C6: immediately after the iteration of a "pass" event with non-empty
`Test`, the output buffer `lastOutput` is empty, whatever it held before. -/
theorem pass_clears_output (s : State) (now : Int) (l : logJSON)
    (ht : l.Test ≠ "") (ha : l.Action = "pass") :
    (step s now l).lastOutput = "" := by
  rw [step_terminating s now l ht (Or.inl ha), render_lastOutput]
  simp [ha]

/-- C6 at run(p.A), output(p.A, "x"), pass(p.A): the buffer holds "x" before
the pass and is empty after it. -/
theorem pass_clears_output_witness :
    (process State.init
        [(0, mkEvent "run" "p" "A" ""), (1, mkEvent "output" "p" "A" "x")]).lastOutput = "x"
      ∧ (mkEvent "pass" "p" "A" "").Test ≠ ""
      ∧ (mkEvent "pass" "p" "A" "").Action = "pass"
      ∧ (step (process State.init
          [(0, mkEvent "run" "p" "A" ""), (1, mkEvent "output" "p" "A" "x")]) 2
          (mkEvent "pass" "p" "A" "")).lastOutput = "" :=
  ⟨by decide, by decide, by decide,
   pass_clears_output
     (process State.init [(0, mkEvent "run" "p" "A" ""), (1, mkEvent "output" "p" "A" "x")]) 2
     (mkEvent "pass" "p" "A" "") (by decide) (by decide)⟩

/-- C7: the code after the loop writes one newline and then, if and only if
the output buffer is not empty, the buffered text and a newline, and changes
nothing else. For a stream that ends with run(A), output(A, "err"), fail(A),
after any events and for any clock readings: the loop ends with the status line
of the fail (followed by at most the newline of a change of key) as the last
thing written, and `read` then writes a newline, the buffer, which ends with
"err", and a newline. -/
theorem final_output (pre : List (Int × logJSON)) (n1 n2 n3 : Int) (p t : String)
    (ht : t ≠ "") :
    (∀ s : State, finish s
        = { s with out := s.out ++ "\n"
              ++ (if s.lastOutput = "" then "" else s.lastOutput ++ "\n") })
      ∧ ∃ buf nl : String, (nl = "" ∨ nl = "\n")
        ∧ (process State.init (pre ++ [(n1, mkEvent "run" p t ""),
              (n2, mkEvent "output" p t "err"), (n3, mkEvent "fail" p t "")])).out
          = (process State.init (pre ++ [(n1, mkEvent "run" p t ""),
              (n2, mkEvent "output" p t "err")])).out
            ++ "\r"
            ++ status (p ++ "." ++ t)
                (entry (process State.init (pre ++ [(n1, mkEvent "run" p t ""),
                  (n2, mkEvent "output" p t "err"), (n3, mkEvent "fail" p t "")])).runs
                  (p ++ "." ++ t))
                (since n3 n1)
            ++ nl
        ∧ (readEvents (pre ++ [(n1, mkEvent "run" p t ""),
              (n2, mkEvent "output" p t "err"), (n3, mkEvent "fail" p t "")])).out
          = (process State.init (pre ++ [(n1, mkEvent "run" p t ""),
              (n2, mkEvent "output" p t "err"), (n3, mkEvent "fail" p t "")])).out
            ++ "\n" ++ (buf ++ "err") ++ "\n" := by
  refine ⟨finish_eq, (process State.init pre).lastOutput,
    (if (process State.init pre).lastK ≠ p ++ "." ++ t ∧ (process State.init pre).lastK ≠ ""
      then "\n" else ""), ?_, ?_, ?_⟩
  · split_ifs <;> simp
  · have h3 : pre ++ [(n1, mkEvent "run" p t ""), (n2, mkEvent "output" p t "err"),
          (n3, mkEvent "fail" p t "")]
        = (pre ++ [(n1, mkEvent "run" p t ""), (n2, mkEvent "output" p t "err")])
          ++ [(n3, mkEvent "fail" p t "")] := by simp
    have hlen : (process State.init (pre ++ [(n1, mkEvent "run" p t ""),
        (n2, mkEvent "output" p t "err")])).lastLen = 0 := process_lastLen _ _ rfl
    have hst : (process State.init (pre ++ [(n1, mkEvent "run" p t ""),
        (n2, mkEvent "output" p t "err")])).st = n1 := by
      rw [process_append, process_cons, process_cons, process_nil,
        step_output _ _ _ ht rfl, step_run _ _ _ ht rfl]
    have hk : (process State.init (pre ++ [(n1, mkEvent "run" p t ""),
        (n2, mkEvent "output" p t "err")])).lastK = (process State.init pre).lastK := by
      rw [process_append, process_cons, process_cons, process_nil,
        step_output _ _ _ ht rfl, step_run _ _ _ ht rfl]
    rw [h3, process_append, process_cons, process_nil]
    rw [step_terminating_out _ n3 (mkEvent "fail" p t "") ht (Or.inr rfl), hlen, hst, hk]
    have hneg : ∀ n : Nat, ¬ ((n : Int) < 0) := fun n => by omega
    simp only [hneg, if_false, String.append_empty]
    rfl
  · have hbuf : (process State.init (pre ++ [(n1, mkEvent "run" p t ""),
        (n2, mkEvent "output" p t "err"), (n3, mkEvent "fail" p t "")])).lastOutput
        = (process State.init pre).lastOutput ++ "err" := by
      rw [process_append, process_cons, process_cons, process_cons, process_nil,
        step_fail_lastOutput _ _ _ ht rfl, step_output _ _ _ ht rfl, step_run _ _ _ ht rfl]
      rfl
    unfold readEvents
    rw [finish_eq, hbuf, if_neg (append_ne_empty _ "err" (by decide))]
    simp [String.append_assoc]

/-- C7 at the stream run(p.A), output(p.A, "err"), fail(p.A): the output of
`read` is the status line, a newline, and "err" with its newline. -/
theorem final_output_witness :
    ("A" : String) ≠ ""
      ∧ (readEvents ([] ++ [(0, mkEvent "run" "p" "A" ""), (1, mkEvent "output" "p" "A" "err"),
          (1000000000, mkEvent "fail" "p" "A" "")])).out = "\rp.A: 0/1 1s\nerr\n"
      ∧ ∃ buf nl : String, (nl = "" ∨ nl = "\n")
        ∧ (process State.init ([] ++ [(0, mkEvent "run" "p" "A" ""),
              (1, mkEvent "output" "p" "A" "err"), (1000000000, mkEvent "fail" "p" "A" "")])).out
          = (process State.init ([] ++ [(0, mkEvent "run" "p" "A" ""),
              (1, mkEvent "output" "p" "A" "err")])).out
            ++ "\r"
            ++ status ("p" ++ "." ++ "A")
                (entry (process State.init ([] ++ [(0, mkEvent "run" "p" "A" ""),
                  (1, mkEvent "output" "p" "A" "err"),
                  (1000000000, mkEvent "fail" "p" "A" "")])).runs ("p" ++ "." ++ "A"))
                (since 1000000000 0)
            ++ nl
        ∧ (readEvents ([] ++ [(0, mkEvent "run" "p" "A" ""),
              (1, mkEvent "output" "p" "A" "err"), (1000000000, mkEvent "fail" "p" "A" "")])).out
          = (process State.init ([] ++ [(0, mkEvent "run" "p" "A" ""),
              (1, mkEvent "output" "p" "A" "err"), (1000000000, mkEvent "fail" "p" "A" "")])).out
            ++ "\n" ++ (buf ++ "err") ++ "\n" :=
  ⟨by decide, by decide,
   (final_output [] 0 1 1000000000 "p" "A" (by decide)).2⟩

/-- C8: on a "pass" or "fail" event with non-empty `Test` and key `K`, the
iteration writes a carriage return and then exactly the string
`K ++ ": " ++ success ++ "/" ++ attempts ++ " " ++ duration`, where `success`
and `attempts` are the counters of `K` in decimal after this event has been
counted (a pass adds one to `success`, a fail adds nothing, `attempts` is as
before) and `duration` is `time.Since(st)` as `Duration.String` formats it.
After the line come only the padding spaces, if `lastLen` asks for any, and the
newline of a change of key. -/
theorem status_line_written (s : State) (now : Int) (l : logJSON)
    (ht : l.Test ≠ "") (ha : l.Action = "pass" ∨ l.Action = "fail") :
    ∃ line : String,
      line = (l.Package ++ "." ++ l.Test) ++ ": "
          ++ toString (entry (step s now l).runs (l.Package ++ "." ++ l.Test)).success ++ "/"
          ++ toString (entry (step s now l).runs (l.Package ++ "." ++ l.Test)).attempts ++ " "
          ++ durationString (since now s.st)
      ∧ (step s now l).out
          = s.out ++ "\r" ++ line
            ++ (if (((("\r" ++ line).utf8ByteSize : Nat) : Int)) < s.lastLen then
                  spaces (s.lastLen - (((("\r" ++ line).utf8ByteSize : Nat) : Int)))
                else "")
            ++ (if s.lastK ≠ l.Package ++ "." ++ l.Test ∧ s.lastK ≠ "" then "\n" else "")
      ∧ (entry (step s now l).runs (l.Package ++ "." ++ l.Test)).success
          = (entry s.runs (l.Package ++ "." ++ l.Test)).success
            + (if l.Action = "pass" then 1 else 0)
      ∧ (entry (step s now l).runs (l.Package ++ "." ++ l.Test)).attempts
          = (entry s.runs (l.Package ++ "." ++ l.Test)).attempts := by
  have hr : ¬ l.Action = "run" := by
    rcases ha with ha | ha <;> rw [ha] <;> decide
  refine ⟨_, rfl, ?_, ?_, ?_⟩
  · exact step_terminating_out s now l ht ha
  · have h := (step_entry s now l (key l)).2
    simp only [isEvent, ht, ne_eq, not_false_eq_true, decide_True, Bool.true_and,
      decide_eq_true_eq] at h
    exact h
  · have h := (step_entry s now l (key l)).1
    simp only [isEvent, ht, ne_eq, not_false_eq_true, decide_True, Bool.true_and,
      decide_eq_true_eq, hr, if_false, add_zero] at h
    exact h

/-- C8 at pass(p.A), one second after run(p.A): the iteration writes a
carriage return and "p.A: 1/1 1s". -/
theorem status_line_written_witness :
    (mkEvent "pass" "p" "A" "").Test ≠ ""
      ∧ (step (process State.init [(0, mkEvent "run" "p" "A" "")]) 1000000000
          (mkEvent "pass" "p" "A" "")).out = "\rp.A: 1/1 1s"
      ∧ ∃ line : String,
        line = ((mkEvent "pass" "p" "A" "").Package ++ "." ++ (mkEvent "pass" "p" "A" "").Test)
          ++ ": "
          ++ toString (entry (step (process State.init [(0, mkEvent "run" "p" "A" "")])
              1000000000 (mkEvent "pass" "p" "A" "")).runs
              ((mkEvent "pass" "p" "A" "").Package ++ "."
                ++ (mkEvent "pass" "p" "A" "").Test)).success ++ "/"
          ++ toString (entry (step (process State.init [(0, mkEvent "run" "p" "A" "")])
              1000000000 (mkEvent "pass" "p" "A" "")).runs
              ((mkEvent "pass" "p" "A" "").Package ++ "."
                ++ (mkEvent "pass" "p" "A" "").Test)).attempts ++ " "
          ++ durationString
              (since 1000000000 (process State.init [(0, mkEvent "run" "p" "A" "")]).st)
        ∧ (step (process State.init [(0, mkEvent "run" "p" "A" "")]) 1000000000
            (mkEvent "pass" "p" "A" "")).out
          = (process State.init [(0, mkEvent "run" "p" "A" "")]).out ++ "\r" ++ line
            ++ (if (((("\r" ++ line).utf8ByteSize : Nat) : Int))
                  < (process State.init [(0, mkEvent "run" "p" "A" "")]).lastLen then
                  spaces ((process State.init [(0, mkEvent "run" "p" "A" "")]).lastLen
                    - (((("\r" ++ line).utf8ByteSize : Nat) : Int)))
                else "")
            ++ (if (process State.init [(0, mkEvent "run" "p" "A" "")]).lastK
                    ≠ (mkEvent "pass" "p" "A" "").Package ++ "."
                      ++ (mkEvent "pass" "p" "A" "").Test
                  ∧ (process State.init [(0, mkEvent "run" "p" "A" "")]).lastK ≠ ""
                then "\n" else "")
        ∧ (entry (step (process State.init [(0, mkEvent "run" "p" "A" "")]) 1000000000
              (mkEvent "pass" "p" "A" "")).runs
              ((mkEvent "pass" "p" "A" "").Package ++ "."
                ++ (mkEvent "pass" "p" "A" "").Test)).success
          = (entry (process State.init [(0, mkEvent "run" "p" "A" "")]).runs
              ((mkEvent "pass" "p" "A" "").Package ++ "."
                ++ (mkEvent "pass" "p" "A" "").Test)).success
            + (if (mkEvent "pass" "p" "A" "").Action = "pass" then 1 else 0)
        ∧ (entry (step (process State.init [(0, mkEvent "run" "p" "A" "")]) 1000000000
              (mkEvent "pass" "p" "A" "")).runs
              ((mkEvent "pass" "p" "A" "").Package ++ "."
                ++ (mkEvent "pass" "p" "A" "").Test)).attempts
          = (entry (process State.init [(0, mkEvent "run" "p" "A" "")]).runs
              ((mkEvent "pass" "p" "A" "").Package ++ "."
                ++ (mkEvent "pass" "p" "A" "").Test)).attempts :=
  ⟨by decide, by decide,
   status_line_written (process State.init [(0, mkEvent "run" "p" "A" "")]) 1000000000
     (mkEvent "pass" "p" "A" "") (by decide) (Or.inl (by decide))⟩

/-- C9: the code at run(p.A), pass(p.A), run(p.B), pass(p.B), run(p.B),
pass(p.B). The two "pass" events of `p.B` are consecutive and have the same
key; the first one writes its status line and then the newline of the change
of key, so a newline stands between the two status lines of `p.B`. -/
theorem same_key_newline_between :
    (process State.init
        [(0, mkEvent "run" "p" "A" ""), (1000000000, mkEvent "pass" "p" "A" ""),
         (2000000000, mkEvent "run" "p" "B" ""), (3000000000, mkEvent "pass" "p" "B" "")]).out
        = "\rp.A: 1/1 1s" ++ "\rp.B: 1/1 1s" ++ "\n"
      ∧ (process State.init
        [(0, mkEvent "run" "p" "A" ""), (1000000000, mkEvent "pass" "p" "A" ""),
         (2000000000, mkEvent "run" "p" "B" ""), (3000000000, mkEvent "pass" "p" "B" ""),
         (4000000000, mkEvent "run" "p" "B" ""), (5000000000, mkEvent "pass" "p" "B" "")]).out
        = "\rp.A: 1/1 1s" ++ "\rp.B: 1/1 1s" ++ "\n" ++ "\rp.B: 2/2 1s" := by
  decide

/-! ## Skipped events -/

/-- C10: an event whose `Test` is empty, whatever its `Action`, leaves the
whole state as it was (the map, the output buffer, `lastK`, `lastLen`, the
start time) and writes nothing: the state, standard output included, is the
same after the iteration. -/
theorem empty_test_skipped (s : State) (now : Int) (l : logJSON) (h : l.Test = "") :
    step s now l = s := by
  simp [step, h]

/-- C10 at the package-level event pass(p, "") after run(p.A),
output(p.A, "x"). -/
theorem empty_test_skipped_witness :
    (mkEvent "pass" "p" "" "ok").Test = ""
      ∧ step (process State.init
          [(0, mkEvent "run" "p" "A" ""), (1, mkEvent "output" "p" "A" "x")]) 2
          (mkEvent "pass" "p" "" "ok")
        = process State.init
          [(0, mkEvent "run" "p" "A" ""), (1, mkEvent "output" "p" "A" "x")] :=
  ⟨by decide,
   empty_test_skipped
     (process State.init [(0, mkEvent "run" "p" "A" ""), (1, mkEvent "output" "p" "A" "x")]) 2
     (mkEvent "pass" "p" "" "ok") (by decide)⟩

/-! ## Events that do not render -/

/-- C11: an event with non-empty `Test` whose `Action` is none of "run",
"pass", "fail", "output" changes the `attempts` and `success` counters of no
key (an absent entry counting as 0/0), leaves the output buffer, `lastK`,
`lastLen` and the start time as they were, and writes nothing. -/
theorem unknown_action_ignored (s : State) (now : Int) (l : logJSON) (k : String)
    (ht : l.Test ≠ "") (hr : l.Action ≠ "run") (hp : l.Action ≠ "pass")
    (hf : l.Action ≠ "fail") (ho : l.Action ≠ "output") :
    (entry (step s now l).runs k).attempts = (entry s.runs k).attempts
      ∧ (entry (step s now l).runs k).success = (entry s.runs k).success
      ∧ (step s now l).lastOutput = s.lastOutput
      ∧ (step s now l).lastK = s.lastK
      ∧ (step s now l).lastLen = s.lastLen
      ∧ (step s now l).st = s.st
      ∧ (step s now l).out = s.out := by
  obtain ⟨g1, g2⟩ := step_entry s now l k
  refine ⟨?_, ?_, ?_, ?_, ?_, ?_, ?_⟩
  · rw [g1]; simp [isEvent, hr]
  · rw [g2]; simp [isEvent, hp]
  all_goals simp [step, ht, hr, hp, hf, ho]

/-- C11 at the event skip(p.A) after run(p.A), output(p.A, "x"), pass(p.B). -/
theorem unknown_action_ignored_witness :
    (mkEvent "skip" "p" "A" "").Test ≠ ""
      ∧ (entry (step (process State.init [(0, mkEvent "run" "p" "A" ""),
            (1, mkEvent "output" "p" "A" "x"), (2, mkEvent "pass" "p" "B" "")]) 3
            (mkEvent "skip" "p" "A" "")).runs "p.A").attempts
          = (entry (process State.init [(0, mkEvent "run" "p" "A" ""),
            (1, mkEvent "output" "p" "A" "x"), (2, mkEvent "pass" "p" "B" "")]).runs
            "p.A").attempts
      ∧ (entry (step (process State.init [(0, mkEvent "run" "p" "A" ""),
            (1, mkEvent "output" "p" "A" "x"), (2, mkEvent "pass" "p" "B" "")]) 3
            (mkEvent "skip" "p" "A" "")).runs "p.A").success
          = (entry (process State.init [(0, mkEvent "run" "p" "A" ""),
            (1, mkEvent "output" "p" "A" "x"), (2, mkEvent "pass" "p" "B" "")]).runs
            "p.A").success
      ∧ (step (process State.init [(0, mkEvent "run" "p" "A" ""),
            (1, mkEvent "output" "p" "A" "x"), (2, mkEvent "pass" "p" "B" "")]) 3
            (mkEvent "skip" "p" "A" "")).lastOutput
          = (process State.init [(0, mkEvent "run" "p" "A" ""),
            (1, mkEvent "output" "p" "A" "x"), (2, mkEvent "pass" "p" "B" "")]).lastOutput
      ∧ (step (process State.init [(0, mkEvent "run" "p" "A" ""),
            (1, mkEvent "output" "p" "A" "x"), (2, mkEvent "pass" "p" "B" "")]) 3
            (mkEvent "skip" "p" "A" "")).lastK
          = (process State.init [(0, mkEvent "run" "p" "A" ""),
            (1, mkEvent "output" "p" "A" "x"), (2, mkEvent "pass" "p" "B" "")]).lastK
      ∧ (step (process State.init [(0, mkEvent "run" "p" "A" ""),
            (1, mkEvent "output" "p" "A" "x"), (2, mkEvent "pass" "p" "B" "")]) 3
            (mkEvent "skip" "p" "A" "")).lastLen
          = (process State.init [(0, mkEvent "run" "p" "A" ""),
            (1, mkEvent "output" "p" "A" "x"), (2, mkEvent "pass" "p" "B" "")]).lastLen
      ∧ (step (process State.init [(0, mkEvent "run" "p" "A" ""),
            (1, mkEvent "output" "p" "A" "x"), (2, mkEvent "pass" "p" "B" "")]) 3
            (mkEvent "skip" "p" "A" "")).st
          = (process State.init [(0, mkEvent "run" "p" "A" ""),
            (1, mkEvent "output" "p" "A" "x"), (2, mkEvent "pass" "p" "B" "")]).st
      ∧ (step (process State.init [(0, mkEvent "run" "p" "A" ""),
            (1, mkEvent "output" "p" "A" "x"), (2, mkEvent "pass" "p" "B" "")]) 3
            (mkEvent "skip" "p" "A" "")).out
          = (process State.init [(0, mkEvent "run" "p" "A" ""),
            (1, mkEvent "output" "p" "A" "x"), (2, mkEvent "pass" "p" "B" "")]).out :=
  ⟨by decide,
   unknown_action_ignored
     (process State.init [(0, mkEvent "run" "p" "A" ""),
       (1, mkEvent "output" "p" "A" "x"), (2, mkEvent "pass" "p" "B" "")]) 3
     (mkEvent "skip" "p" "A" "") "p.A"
     (by decide) (by decide) (by decide) (by decide) (by decide)⟩

/-! ## The duration -/

/-- C12, as stated, fails: the events run(pkg.T) and pass(pkg.T) carry the
timestamps 0 and 1s, the loop handles them at the clock readings 0 and 2s, and
the line reads "pkg.T: 1/1 2s", not "pkg.T: 1/1 1s". -/
theorem timestamps_not_used :
    (readEvents [(0, mkEventAt 0 "run" "pkg" "T" ""),
        (2000000000, mkEventAt 1000000000 "pass" "pkg" "T" "")]).out = "\rpkg.T: 1/1 2s\n"
      ∧ (readEvents [(0, mkEventAt 0 "run" "pkg" "T" ""),
        (2000000000, mkEventAt 1000000000 "pass" "pkg" "T" "")]).out ≠ "\rpkg.T: 1/1 1s\n" := by
  decide

/-- C12, amended: for the events run(pkg.T), pass(pkg.T), whatever their
timestamps `t0` and `t1`, handled by the loop at the clock readings `c` and
`c + 1s`, `read` writes a carriage return, "pkg.T: 1/1 1s" and a newline, and
nothing else: the output buffer is empty and no block follows. -/
theorem one_second_scenario (c t0 t1 : Int) :
    (readEvents [(c, mkEventAt t0 "run" "pkg" "T" ""),
        (c + 1000000000, mkEventAt t1 "pass" "pkg" "T" "")]).out = "\rpkg.T: 1/1 1s\n"
      ∧ (readEvents [(c, mkEventAt t0 "run" "pkg" "T" ""),
        (c + 1000000000, mkEventAt t1 "pass" "pkg" "T" "")]).lastOutput = "" := by
  have hs : since (c + 1000000000) c = 1000000000 :=
    since_add c 1000000000 (by decide) (by decide)
  have hout : (process State.init [(c, mkEventAt t0 "run" "pkg" "T" ""),
      (c + 1000000000, mkEventAt t1 "pass" "pkg" "T" "")]).out = "\rpkg.T: 1/1 1s" := by
    simp [process, step, mkEventAt, key, State.init, entry, Runs.get, Runs.set, render, status,
      hs]
    decide
  have hbuf : (process State.init [(c, mkEventAt t0 "run" "pkg" "T" ""),
      (c + 1000000000, mkEventAt t1 "pass" "pkg" "T" "")]).lastOutput = "" := by
    simp [process, step, mkEventAt, key, State.init, entry, Runs.get, Runs.set, render]
  unfold readEvents
  refine ⟨?_, ?_⟩
  · rw [finish_eq]
    simp only [hbuf, hout, if_true]
    decide
  · rw [finish_lastOutput, hbuf]

/-! ## Frame properties of "fail", "run" and "output" -/

/-- C14: a "fail" event with non-empty `Test` leaves the output buffer as it
was and leaves the `attempts` and `success` counters of every key as they were
(an absent entry counting as 0/0). -/
theorem fail_keeps_buffer_and_counters (s : State) (now : Int) (l : logJSON) (k : String)
    (ht : l.Test ≠ "") (ha : l.Action = "fail") :
    (step s now l).lastOutput = s.lastOutput
      ∧ (entry (step s now l).runs k).attempts = (entry s.runs k).attempts
      ∧ (entry (step s now l).runs k).success = (entry s.runs k).success := by
  obtain ⟨g1, g2⟩ := step_entry s now l k
  refine ⟨step_fail_lastOutput s now l ht ha, ?_, ?_⟩
  · rw [g1]; simp [isEvent, ha]
  · rw [g2]; simp [isEvent, ha]

/-- C14 at fail(p.A) after run(p.A), output(p.A, "x"): the buffer is still "x"
and the counters of `p.A` are still 1 and 0. -/
theorem fail_keeps_buffer_and_counters_witness :
    (mkEvent "fail" "p" "A" "").Test ≠ ""
      ∧ (process State.init [(0, mkEvent "run" "p" "A" ""),
            (1, mkEvent "output" "p" "A" "x")]).lastOutput = "x"
      ∧ (step (process State.init [(0, mkEvent "run" "p" "A" ""),
            (1, mkEvent "output" "p" "A" "x")]) 2 (mkEvent "fail" "p" "A" "")).lastOutput
          = (process State.init [(0, mkEvent "run" "p" "A" ""),
            (1, mkEvent "output" "p" "A" "x")]).lastOutput
      ∧ (entry (step (process State.init [(0, mkEvent "run" "p" "A" ""),
            (1, mkEvent "output" "p" "A" "x")]) 2 (mkEvent "fail" "p" "A" "")).runs
            "p.A").attempts
          = (entry (process State.init [(0, mkEvent "run" "p" "A" ""),
            (1, mkEvent "output" "p" "A" "x")]).runs "p.A").attempts
      ∧ (entry (step (process State.init [(0, mkEvent "run" "p" "A" ""),
            (1, mkEvent "output" "p" "A" "x")]) 2 (mkEvent "fail" "p" "A" "")).runs
            "p.A").success
          = (entry (process State.init [(0, mkEvent "run" "p" "A" ""),
            (1, mkEvent "output" "p" "A" "x")]).runs "p.A").success :=
  ⟨by decide, by decide,
   fail_keeps_buffer_and_counters
     (process State.init [(0, mkEvent "run" "p" "A" ""), (1, mkEvent "output" "p" "A" "x")]) 2
     (mkEvent "fail" "p" "A" "") "p.A" (by decide) (by decide)⟩

/-- C15: an event with action "run" or "output" writes nothing and leaves
`lastK` and `lastLen` as they were; and an iteration that writes something or
changes `lastK` or `lastLen` is the iteration of a "pass" or "fail" event with
non-empty `Test`. -/
theorem render_only_on_pass_fail (s : State) (now : Int) (l : logJSON) :
    ((l.Action = "run" ∨ l.Action = "output") →
        (step s now l).out = s.out ∧ (step s now l).lastK = s.lastK
          ∧ (step s now l).lastLen = s.lastLen)
      ∧ (¬ ((step s now l).out = s.out ∧ (step s now l).lastK = s.lastK
            ∧ (step s now l).lastLen = s.lastLen) →
          l.Test ≠ "" ∧ (l.Action = "pass" ∨ l.Action = "fail")) := by
  have key_fact : l.Test = "" ∨ (l.Action ≠ "pass" ∧ l.Action ≠ "fail") →
      (step s now l).out = s.out ∧ (step s now l).lastK = s.lastK
        ∧ (step s now l).lastLen = s.lastLen := by
    rintro (ht | ⟨hp, hf⟩)
    · simp [step, ht]
    · unfold step
      split_ifs <;> simp
  constructor
  · rintro (ha | ha)
    · exact key_fact (Or.inr ⟨by rw [ha]; decide, by rw [ha]; decide⟩)
    · exact key_fact (Or.inr ⟨by rw [ha]; decide, by rw [ha]; decide⟩)
  · intro hne
    by_contra hcon
    apply hne
    apply key_fact
    by_cases ht : l.Test = ""
    · exact Or.inl ht
    · right
      constructor
      · intro hp; exact hcon ⟨ht, Or.inl hp⟩
      · intro hf; exact hcon ⟨ht, Or.inr hf⟩

/-- C15 at run(p.B) and output(p.B, "x") after run(p.A), pass(p.A): the
output stays "\rp.A: 1/1 1s" and `lastK` stays `p.A`. -/
theorem render_only_on_pass_fail_witness :
    (process State.init [(0, mkEvent "run" "p" "A" ""),
        (1000000000, mkEvent "pass" "p" "A" "")]).out = "\rp.A: 1/1 1s"
      ∧ (process State.init [(0, mkEvent "run" "p" "A" ""),
        (1000000000, mkEvent "pass" "p" "A" "")]).lastK = "p.A"
      ∧ ((step (process State.init [(0, mkEvent "run" "p" "A" ""),
            (1000000000, mkEvent "pass" "p" "A" "")]) 2000000000
            (mkEvent "run" "p" "B" "")).out
          = (process State.init [(0, mkEvent "run" "p" "A" ""),
            (1000000000, mkEvent "pass" "p" "A" "")]).out
        ∧ (step (process State.init [(0, mkEvent "run" "p" "A" ""),
            (1000000000, mkEvent "pass" "p" "A" "")]) 2000000000
            (mkEvent "run" "p" "B" "")).lastK
          = (process State.init [(0, mkEvent "run" "p" "A" ""),
            (1000000000, mkEvent "pass" "p" "A" "")]).lastK
        ∧ (step (process State.init [(0, mkEvent "run" "p" "A" ""),
            (1000000000, mkEvent "pass" "p" "A" "")]) 2000000000
            (mkEvent "run" "p" "B" "")).lastLen
          = (process State.init [(0, mkEvent "run" "p" "A" ""),
            (1000000000, mkEvent "pass" "p" "A" "")]).lastLen)
      ∧ ((step (process State.init [(0, mkEvent "run" "p" "A" ""),
            (1000000000, mkEvent "pass" "p" "A" "")]) 2000000000
            (mkEvent "output" "p" "B" "x")).out
          = (process State.init [(0, mkEvent "run" "p" "A" ""),
            (1000000000, mkEvent "pass" "p" "A" "")]).out
        ∧ (step (process State.init [(0, mkEvent "run" "p" "A" ""),
            (1000000000, mkEvent "pass" "p" "A" "")]) 2000000000
            (mkEvent "output" "p" "B" "x")).lastK
          = (process State.init [(0, mkEvent "run" "p" "A" ""),
            (1000000000, mkEvent "pass" "p" "A" "")]).lastK
        ∧ (step (process State.init [(0, mkEvent "run" "p" "A" ""),
            (1000000000, mkEvent "pass" "p" "A" "")]) 2000000000
            (mkEvent "output" "p" "B" "x")).lastLen
          = (process State.init [(0, mkEvent "run" "p" "A" ""),
            (1000000000, mkEvent "pass" "p" "A" "")]).lastLen) :=
  ⟨by decide, by decide,
   (render_only_on_pass_fail
     (process State.init [(0, mkEvent "run" "p" "A" ""),
       (1000000000, mkEvent "pass" "p" "A" "")]) 2000000000
     (mkEvent "run" "p" "B" "")).1 (Or.inl (by decide)),
   (render_only_on_pass_fail
     (process State.init [(0, mkEvent "run" "p" "A" ""),
       (1000000000, mkEvent "pass" "p" "A" "")]) 2000000000
     (mkEvent "output" "p" "B" "x")).1 (Or.inr (by decide))⟩

/-! ## The render state -/

/-- C16: the code at run(p.A), pass(p.A). The loop writes the status line
"p.A: 1/1 1s", 11 bytes long (12 bytes with the carriage return, the count
`Printf` returns), and `lastLen` is 0 afterwards, as it is after every sequence
of events: the next overwrite has no length to compare against. -/
theorem lastLen_after_status :
    (process State.init [(0, mkEvent "run" "p" "A" ""),
        (1000000000, mkEvent "pass" "p" "A" "")]).out = "\r" ++ "p.A: 1/1 1s"
      ∧ ("p.A: 1/1 1s" : String).utf8ByteSize = 11
      ∧ ("\r" ++ "p.A: 1/1 1s" : String).utf8ByteSize = 12
      ∧ (process State.init [(0, mkEvent "run" "p" "A" ""),
        (1000000000, mkEvent "pass" "p" "A" "")]).lastLen = 0
      ∧ ∀ evs : List (Int × logJSON), (process State.init evs).lastLen = 0 := by
  refine ⟨by decide, by decide, by decide, by decide,
    fun evs => process_lastLen evs State.init rfl⟩

/-- C17: after any sequence of events `lastK` is the key of the most recent
"pass" or "fail" event with non-empty `Test`, and the empty string when no such
event has been processed; and the key of an event is never the empty string. -/
theorem current_key (evs : List (Int × logJSON)) (l : logJSON) :
    (process State.init evs).lastK = expectedLastK evs
      ∧ (readEvents evs).lastK = expectedLastK evs
      ∧ key l ≠ "" := by
  refine ⟨process_lastK evs, ?_, key_ne_empty l⟩
  unfold readEvents
  rw [finish_eq]
  exact process_lastK evs

/-! ## The output buffer over a whole stream -/

/-- C13: after any sequence of events the output buffer is the concatenation,
in stream order, of the `Output` fields of the "output" events with non-empty
`Test` that came after the most recent "pass" event with non-empty `Test` (all
of them when there was no such pass); and after run(A), output(A, o1),
pass(A), run(A), output(A, o2), fail(A), for a key `A` with non-empty test name
and any clock readings, the counters of `A` are `attempts = 2` and
`success = 1` and the buffer is exactly `o2`. -/
theorem buffer_after_last_pass (evs : List (Int × logJSON)) (p t o1 o2 : String)
    (n1 n2 n3 n4 n5 n6 : Int) (ht : t ≠ "") :
    (process State.init evs).lastOutput = expectedBuffer evs
      ∧ (entry (process State.init
          [(n1, mkEvent "run" p t ""), (n2, mkEvent "output" p t o1),
           (n3, mkEvent "pass" p t ""), (n4, mkEvent "run" p t ""),
           (n5, mkEvent "output" p t o2), (n6, mkEvent "fail" p t "")]).runs
          (p ++ "." ++ t)).attempts = 2
      ∧ (entry (process State.init
          [(n1, mkEvent "run" p t ""), (n2, mkEvent "output" p t o1),
           (n3, mkEvent "pass" p t ""), (n4, mkEvent "run" p t ""),
           (n5, mkEvent "output" p t o2), (n6, mkEvent "fail" p t "")]).runs
          (p ++ "." ++ t)).success = 1
      ∧ (process State.init
          [(n1, mkEvent "run" p t ""), (n2, mkEvent "output" p t o1),
           (n3, mkEvent "pass" p t ""), (n4, mkEvent "run" p t ""),
           (n5, mkEvent "output" p t o2), (n6, mkEvent "fail" p t "")]).lastOutput = o2 := by
  refine ⟨process_lastOutput evs, ?_, ?_, ?_⟩
  · rw [(process_entry _ _ State.init).1, entry_init]
    simp [countEvents, isEvent, mkEvent, key, ht]
  · rw [(process_entry _ _ State.init).2, entry_init]
    simp [countEvents, isEvent, mkEvent, key, ht]
  · rw [process_lastOutput]
    simp [expectedBuffer, afterLastPass, hasAction, mkEvent, ht, String.join]

/-- C13 at the key `p.A` with the outputs "one" and "two". -/
theorem buffer_after_last_pass_witness :
    ("A" : String) ≠ ""
      ∧ (process State.init [(0, mkEvent "output" "p" "B" "zero")]).lastOutput
          = expectedBuffer [(0, mkEvent "output" "p" "B" "zero")]
      ∧ (entry (process State.init
          [(1, mkEvent "run" "p" "A" ""), (2, mkEvent "output" "p" "A" "one"),
           (3, mkEvent "pass" "p" "A" ""), (4, mkEvent "run" "p" "A" ""),
           (5, mkEvent "output" "p" "A" "two"), (6, mkEvent "fail" "p" "A" "")]).runs
          ("p" ++ "." ++ "A")).attempts = 2
      ∧ (entry (process State.init
          [(1, mkEvent "run" "p" "A" ""), (2, mkEvent "output" "p" "A" "one"),
           (3, mkEvent "pass" "p" "A" ""), (4, mkEvent "run" "p" "A" ""),
           (5, mkEvent "output" "p" "A" "two"), (6, mkEvent "fail" "p" "A" "")]).runs
          ("p" ++ "." ++ "A")).success = 1
      ∧ (process State.init
          [(1, mkEvent "run" "p" "A" ""), (2, mkEvent "output" "p" "A" "one"),
           (3, mkEvent "pass" "p" "A" ""), (4, mkEvent "run" "p" "A" ""),
           (5, mkEvent "output" "p" "A" "two"), (6, mkEvent "fail" "p" "A" "")]).lastOutput
          = "two" :=
  ⟨by decide,
   buffer_after_last_pass [(0, mkEvent "output" "p" "B" "zero")] "p" "A" "one" "two"
     1 2 3 4 5 6 (by decide)⟩

/-! ## The key -/

/-- C18, as stated, fails: the test `c` of package `a.b` and the test `b.c` of
package `a`, both with non-empty test names, have the same key `a.b.c`, and
after one "run" event of each the one entry `a.b.c` holds `attempts = 2`. -/
theorem key_collision :
    (mkEvent "run" "a.b" "c" "").Test ≠ "" ∧ (mkEvent "run" "a" "b.c" "").Test ≠ ""
      ∧ key (mkEvent "run" "a.b" "c" "") = key (mkEvent "run" "a" "b.c" "")
      ∧ (mkEvent "run" "a.b" "c" "").Package ≠ (mkEvent "run" "a" "b.c" "").Package
      ∧ (mkEvent "run" "a.b" "c" "").Test ≠ (mkEvent "run" "a" "b.c" "").Test
      ∧ (entry (process State.init
          [(0, mkEvent "run" "a.b" "c" ""), (1, mkEvent "run" "a" "b.c" "")]).runs
          "a.b.c").attempts = 2 := by
  decide

/-- C18, amended: for two events whose test names both contain no `.`, or
whose package names both contain no `.`, equal keys imply equal packages and
equal tests. -/
theorem key_injective (l1 l2 : logJSON)
    (h : ('.' ∉ l1.Test.data ∧ '.' ∉ l2.Test.data)
      ∨ ('.' ∉ l1.Package.data ∧ '.' ∉ l2.Package.data))
    (hk : key l1 = key l2) :
    l1.Package = l2.Package ∧ l1.Test = l2.Test := by
  have hd : l1.Package.data ++ '.' :: l1.Test.data = l2.Package.data ++ '.' :: l2.Test.data := by
    rw [← key_data, ← key_data, hk]
  rcases h with ⟨h1, h2⟩ | ⟨h1, h2⟩
  · obtain ⟨e1, e2⟩ := split_at_last '.' _ _ _ _ h1 h2 hd
    exact ⟨String.ext e1, String.ext e2⟩
  · obtain ⟨e1, e2⟩ := split_at_first '.' _ _ _ _ h1 h2 hd
    exact ⟨String.ext e1, String.ext e2⟩

/-- The amended C18 at the package `example.com/p` with the test `TestA`, twice. -/
theorem key_injective_witness :
    (('.' ∉ (mkEvent "run" "example.com/p" "TestA" "").Test.data
        ∧ '.' ∉ (mkEvent "pass" "example.com/p" "TestA" "x").Test.data)
      ∨ ('.' ∉ (mkEvent "run" "example.com/p" "TestA" "").Package.data
        ∧ '.' ∉ (mkEvent "pass" "example.com/p" "TestA" "x").Package.data))
      ∧ key (mkEvent "run" "example.com/p" "TestA" "")
          = key (mkEvent "pass" "example.com/p" "TestA" "x")
      ∧ (mkEvent "run" "example.com/p" "TestA" "").Package
          = (mkEvent "pass" "example.com/p" "TestA" "x").Package
      ∧ (mkEvent "run" "example.com/p" "TestA" "").Test
          = (mkEvent "pass" "example.com/p" "TestA" "x").Test :=
  ⟨Or.inl (by decide), by decide,
   key_injective (mkEvent "run" "example.com/p" "TestA" "")
     (mkEvent "pass" "example.com/p" "TestA" "x") (Or.inl (by decide)) (by decide)⟩

/-! ## The start time -/

/-- C19: when a "pass" or "fail" event with non-empty `Test` is handled at the
clock reading `now` after the events `evs`, and `c` is the clock reading of the
most recent "run" event with non-empty `Test` in `evs`, of whatever key, then
the start time is `c`, the duration is `time.Since` of `c` at `now`, which is
`now - c` whenever that difference is in the range of a `time.Duration`, and
the status line written shows this duration. -/
theorem duration_from_last_run (evs : List (Int × logJSON)) (now c : Int) (l : logJSON)
    (ht : l.Test ≠ "") (ha : l.Action = "pass" ∨ l.Action = "fail")
    (hc : lastRunReading evs = some c) :
    (process State.init evs).st = c
      ∧ (step (process State.init evs) now l).dur = since now c
      ∧ (minDuration ≤ now - c → now - c ≤ maxDuration → since now c = now - c)
      ∧ (step (process State.init evs) now l).out
          = (process State.init evs).out ++ "\r"
            ++ (key l ++ ": "
              ++ toString (entry (step (process State.init evs) now l).runs (key l)).success
              ++ "/"
              ++ toString (entry (step (process State.init evs) now l).runs (key l)).attempts
              ++ " " ++ durationString (since now c))
            ++ (if (process State.init evs).lastK ≠ key l ∧ (process State.init evs).lastK ≠ ""
                then "\n" else "") := by
  have hst : (process State.init evs).st = c := by
    rw [process_st, hc]
    rfl
  have hlen : (process State.init evs).lastLen = 0 := process_lastLen evs State.init rfl
  refine ⟨hst, ?_, ?_, ?_⟩
  · rw [step_terminating _ now l ht ha, render_dur, hst]
  · intro h1 h2
    unfold since
    split_ifs <;> omega
  · rw [step_terminating_out _ now l ht ha, hlen, hst]
    have hneg : ∀ n : Nat, ¬ ((n : Int) < 0) := fun n => by omega
    simp only [hneg, if_false, String.append_empty]
    rfl

/-- C19 at pass(p.A) handled at 3s after run(p.A) at 0s and run(p.B) at 1s:
the line of `p.A` shows 2s, the time since the run of `p.B`. -/
theorem duration_from_last_run_witness :
    (mkEvent "pass" "p" "A" "").Test ≠ ""
      ∧ lastRunReading [(0, mkEvent "run" "p" "A" ""), (1000000000, mkEvent "run" "p" "B" "")]
          = some 1000000000
      ∧ (step (process State.init
          [(0, mkEvent "run" "p" "A" ""), (1000000000, mkEvent "run" "p" "B" "")])
          3000000000 (mkEvent "pass" "p" "A" "")).out = "\rp.A: 1/1 2s"
      ∧ (process State.init
          [(0, mkEvent "run" "p" "A" ""), (1000000000, mkEvent "run" "p" "B" "")]).st
          = 1000000000
      ∧ (step (process State.init
          [(0, mkEvent "run" "p" "A" ""), (1000000000, mkEvent "run" "p" "B" "")])
          3000000000 (mkEvent "pass" "p" "A" "")).dur = since 3000000000 1000000000 :=
  ⟨by decide, by decide, by decide,
   (duration_from_last_run
     [(0, mkEvent "run" "p" "A" ""), (1000000000, mkEvent "run" "p" "B" "")]
     3000000000 1000000000 (mkEvent "pass" "p" "A" "") (by decide) (Or.inl (by decide))
     (by decide)).1,
   (duration_from_last_run
     [(0, mkEvent "run" "p" "A" ""), (1000000000, mkEvent "run" "p" "B" "")]
     3000000000 1000000000 (mkEvent "pass" "p" "A" "") (by decide) (Or.inl (by decide))
     (by decide)).2.1⟩

end Gostress
